import Mathlib

/-
Verification of the raid-channel lifecycle manager (src/raid_bot/bot.py).

Shallow embedding. Identities (users, roles, channels, messages) are modelled
as naturals; timestamps as integers (seconds). External platform calls are
modelled by explicit outcome parameters: a fetch of a message yields a
`FetchResult` (found / not-found / transient failure), and each other fallible
external call is represented by a Bool flag saying whether it succeeds. A
failing call is modelled as raising before its effect is applied, matching the
Python, where an exception aborts the awaiting coroutine at that point.
-/

namespace RaidBot

/-- One embed attached to a message. `fields` holds the (name, value) pairs
added with `embed.add_field`; for a raid start embed the first field's value is
the creator's mention string (bot.py `get_raid_start_embed`). -/
structure Embed where
  fields : List (String × String)
deriving DecidableEq

/-- A message on the platform: its id, creation timestamp (`message.timestamp`
as seconds), and attached embeds. -/
structure Msg where
  id : Nat
  timestamp : Int
  embeds : List Embed
deriving DecidableEq

/-- Outcome of a `client.get_message` call against the platform: the message
was found, the platform answered that it does not exist (deleted), or a
transient failure (network error, rate limit, timeout) occurred. The last two
both surface as exceptions in the Python client. -/
inductive FetchResult (α : Type) where
  | found (a : α)
  | notFound
  | transient
deriving DecidableEq

/-- A raid channel. `topic` is the binding slot (bot.py stores the originating
announcement message id in `channel.topic`, or `None` when the channel is
free). `userGrants` is the set of per-User permission overwrites (membership),
`roleGrants` the set of per-role overwrites, `messages` the ids of messages
currently in the channel (for modelling `purge_from`). -/
structure Channel where
  id : Nat
  topic : Option Nat
  userGrants : Finset Nat
  roleGrants : Finset Nat
  messages : List Nat
deriving DecidableEq

/-- bot.py `is_open`: a channel is Open iff its topic (binding slot) is None. -/
def is_open (ch : Channel) : Bool :=
  ch.topic.isNone

/-- bot.py `get_raid_members`: the User targets of the channel's permission
overwrites. -/
def get_raid_members (ch : Channel) : Finset Nat :=
  ch.userGrants

/-- bot.py `get_announcement_message`: fetch the message whose id is stored in
the channel topic, with a bare `except: return None` that swallows every
failure. A `None` topic makes `client.get_message` raise, which the same
handler swallows; a not-found and a transient failure are likewise both
swallowed to `None`. -/
def get_announcement_message (topic : Option Nat) (fetch : FetchResult Msg) : Option Msg :=
  match topic with
  | none => none
  | some _ =>
    match fetch with
    | .found m => some m
    | .notFound => none
    | .transient => none

/-- The mention string of a user (`user.mention` in discord). Injective in the
user id, which is all the creator-matching logic needs. -/
def mentionOf (u : Nat) : String :=
  "<@" ++ toString u ++ ">"

/-- bot.py `get_raid_creator`: resolve the announcement message; if it exists
and has an embed whose field list is nonempty, take the first field's value as
the creator mention and return the first User overwrite target whose mention
matches; in every other case return None. -/
def get_raid_creator (ch : Channel) (fetch : FetchResult Msg) : Option Nat :=
  match get_announcement_message ch.topic fetch with
  | none => none
  | some m =>
    match m.embeds with
    | [] => none
    | embed :: _ =>
      match embed.fields with
      | [] => none
      | field :: _ =>
        (ch.userGrants.sort (· ≤ ·)).find? (fun u => decide (mentionOf u = field.2))

/-- bot.py `is_raid_expired`: if the announcement message cannot be resolved
the raid counts as expired; otherwise it is expired iff
`raid_duration_seconds < now - create_ts` (strict). -/
def is_raid_expired (topic : Option Nat) (fetch : FetchResult Msg) (now ttl : Int) : Bool :=
  match get_announcement_message topic fetch with
  | none => true
  | some m => decide (ttl < now - m.timestamp)

/-- The guard of one iteration of bot.py `cleanup_raid_channels`: a channel is
passed to `end_raid_group` iff it is not open and (it is expired — which
includes an unresolvable record — or it has no member grants). -/
def sweep_invokes_teardown (fetch : FetchResult Msg) (now ttl : Int) (ch : Channel) : Bool :=
  !(is_open ch) && (is_raid_expired ch.topic fetch now ttl || decide (get_raid_members ch = ∅))

/-- bot.py `get_available_raid_channel`: scan the cached raid-channel list in
discovery order and return the first open one (None when every channel is
busy). The source carries the docstring "We may need to wrap function calls to
this in a lock." — no caller holds any lock. -/
def get_available_raid_channel (pool : List Channel) : Option Channel :=
  pool.find? (fun ch => is_open ch)

/-- Apply an update to the pool entry (entries) with the given channel id,
modelling an external write such as `client.edit_channel` or
`client.edit_channel_permissions` targeted at one channel. -/
def update_channel (cid : Nat) (f : Channel → Channel) (pool : List Channel) : List Channel :=
  pool.map (fun ch => if ch.id = cid then f ch else ch)

/-- Look a channel up in the pool by id. -/
def find_channel (pool : List Channel) (cid : Nat) : Option Channel :=
  pool.find? (fun ch => decide (ch.id = cid))

/-- Two logically concurrent allocations, interleaved at the suspension point
of `start_raid_group`: the synchronous scan (`get_available_raid_channel`) of
each call runs before either call's `await client.edit_channel(channel,
topic=message_id)` write is applied. This is a legal schedule of the Python
coroutines: the scan contains no await, while the topic write suspends, so a
second `on_message` task scheduled in that window scans the unchanged pool. -/
def interleaved_double_allocate (pool : List Channel) (midA midB : Nat) :
    Option Nat × Option Nat × List Channel :=
  let a := (get_available_raid_channel pool).map Channel.id
  let b := (get_available_raid_channel pool).map Channel.id
  let pool1 :=
    match a with
    | some cid => update_channel cid (fun ch => { ch with topic := some midA }) pool
    | none => pool
  let pool2 :=
    match b with
    | some cid => update_channel cid (fun ch => { ch with topic := some midB }) pool1
    | none => pool1
  (a, b, pool2)

/-- Outcomes of the external calls made inside `start_raid_group` after the
topic has been written: fetching the announcement message (unguarded in the
source, so a failure propagates), sending the summary message, adding the
leave reaction, and granting the auxiliary-role permissions. -/
structure BindEnv where
  fetchMsg : FetchResult Msg
  sendOk : Bool
  reactOk : Bool
  permsOk : Bool
deriving DecidableEq

/-- The summary message posted into the raid channel, and whether the leave
reaction has been added to it. -/
structure SummaryMsg where
  channelId : Nat
  hasLeaveReaction : Bool
deriving DecidableEq

/-- Result of `start_raid_group`: the pool after all writes that were applied,
the channel returned by the function (None both when no channel was free and
when an exception aborted the call), the computed expiration, the summary
message if posted, and whether the call ran to completion (`ok = false` means
an exception propagated to the caller). -/
structure StartResult where
  pool : List Channel
  raidChannel : Option Nat
  expiration : Option Int
  summary : Option SummaryMsg
  ok : Bool
deriving DecidableEq

/-- bot.py `get_raid_expiration`: announcement timestamp plus the configured
`raid_duration_seconds`. -/
def get_raid_expiration (startedTs ttl : Int) : Int :=
  startedTs + ttl

/-- bot.py `start_raid_group`: scan for an open channel; if none, return None
without error. Otherwise write the message id into the channel topic, fetch
the announcement message (an unguarded call: not-found or transient failure
raises), compute the expiration, send the summary embed, add the leave
reaction to it, grant every auxiliary role read access, and return the
channel. No step ever rolls the topic write back. -/
def start_raid_group (env : BindEnv) (auxRoles : Finset Nat) (ttl : Int)
    (pool : List Channel) (messageId : Nat) : StartResult :=
  match get_available_raid_channel pool with
  | none => ⟨pool, none, none, none, true⟩
  | some ch =>
    let pool1 := update_channel ch.id (fun c => { c with topic := some messageId }) pool
    match env.fetchMsg with
    | .found m =>
      let expiration := get_raid_expiration m.timestamp ttl
      if env.sendOk = false then ⟨pool1, none, some expiration, none, false⟩
      else if env.reactOk = false then ⟨pool1, none, some expiration, some ⟨ch.id, false⟩, false⟩
      else if env.permsOk = false then ⟨pool1, none, some expiration, some ⟨ch.id, true⟩, false⟩
      else
        let pool2 := update_channel ch.id
          (fun c => { c with roleGrants := c.roleGrants ∪ auxRoles }) pool1
        ⟨pool2, some ch.id, some expiration, some ⟨ch.id, true⟩, true⟩
    | .notFound => ⟨pool1, none, none, none, false⟩
    | .transient => ⟨pool1, none, none, none, false⟩

/-- The user-visible outcome of a session-start request in `on_message`:
either the raid started in a channel, or every channel was busy and the
request is routed to the backup channel with the busy embed (not an error
embed). -/
inductive StartResponse where
  | started (channelId : Nat)
  | busy (backupChannelId : Nat)
deriving DecidableEq

/-- Result of the session-start branch of `on_message`: the pool afterwards,
the response shown to the requester (None when an exception aborted the
handler before responding), and whether the handler completed. -/
structure HandleResult where
  pool : List Channel
  response : Option StartResponse
  ok : Bool
deriving DecidableEq

/-- bot.py `invite_user_to_raid` as it acts on channel state: add a read
overwrite for the user (`client.edit_channel_permissions`). -/
def invite_user_to_raid (cid u : Nat) (pool : List Channel) : List Channel :=
  update_channel cid (fun c => { c with userGrants := insert u c.userGrants }) pool

/-- The session-start branch of bot.py `on_message` (lines 436-460): call
`start_raid_group`; if it returned a channel, edit the raid message with the
start embed and invite the requesting user to the channel; if it returned
None, edit the raid message with the busy embed pointing at the backup
channel. An exception from `start_raid_group` propagates (no response). -/
def handle_raid_start (env : BindEnv) (auxRoles : Finset Nat) (ttl : Int) (backup : Nat)
    (pool : List Channel) (requester messageId : Nat) : HandleResult :=
  let r := start_raid_group env auxRoles ttl pool messageId
  if r.ok = false then ⟨r.pool, none, false⟩
  else
    match r.raidChannel with
    | some cid => ⟨invite_user_to_raid cid requester r.pool, some (.started cid), true⟩
    | none => ⟨r.pool, some (.busy backup), true⟩

/-- Outcomes of the external calls made inside `end_raid_group`: resolving the
announcement record (whose failures are all swallowed inside
`get_announcement_message`), deleting the permission overwrites, purging the
channel history, editing the announcement with the end embed, and clearing its
reactions. -/
structure TeardownEnv where
  fetchRecord : FetchResult Msg
  deletePermsOk : Bool
  purgeOk : Bool
  editMessageOk : Bool
  clearReactionsOk : Bool
deriving DecidableEq

/-- Result of `end_raid_group`: the channel state after the steps that ran,
the set of user grants revoked by this call, and whether the call ran to
completion (`ok = false` means an exception propagated before the remaining
steps — in particular before the topic was cleared). -/
structure TeardownResult where
  channel : Channel
  revoked : Finset Nat
  ok : Bool
deriving DecidableEq

/-- bot.py `end_raid_group`: resolve the creator (never raises — every fetch
failure is swallowed), delete the overwrites of every User target and every
auxiliary viewer role (a call is only made when such a target exists), purge
the message history, then — only if the announcement message resolves — edit
it with the end embed and clear its reactions, and finally clear the topic.
Only the announcement fetches are guarded; a failure of any other step raises
and leaves the remaining steps, including the topic clear, unexecuted. -/
def end_raid_group (env : TeardownEnv) (viewerRoles : Finset Nat) (ch : Channel) :
    TeardownResult :=
  let _creator := get_raid_creator ch env.fetchRecord
  if env.deletePermsOk = false ∧ (ch.userGrants ≠ ∅ ∨ ch.roleGrants ∩ viewerRoles ≠ ∅) then
    ⟨ch, ∅, false⟩
  else
    let revoked := ch.userGrants
    let ch1 : Channel := { ch with userGrants := ∅, roleGrants := ch.roleGrants \ viewerRoles }
    if env.purgeOk = false then ⟨ch1, revoked, false⟩
    else
      let ch2 : Channel := { ch1 with messages := [] }
      match get_announcement_message ch.topic env.fetchRecord with
      | some _ =>
        if env.editMessageOk = false then ⟨ch2, revoked, false⟩
        else if env.clearReactionsOk = false then ⟨ch2, revoked, false⟩
        else ⟨{ ch2 with topic := none }, revoked, true⟩
      | none => ⟨{ ch2 with topic := none }, revoked, true⟩

/-- Membership state of one raid: the user grants on the channel and the join
reaction marks on the announcement message. -/
structure MemberState where
  grants : Finset Nat
  marks : Finset Nat
deriving DecidableEq

/-- bot.py `uninvite_user_from_raid` as it acts on membership state: delete
the user's overwrite and remove the user's join reaction from the
announcement message. -/
def uninvite_user_from_raid (s : MemberState) (u : Nat) : MemberState :=
  ⟨s.grants.erase u, s.marks.erase u⟩

/-- Processing of a join-emoji reaction-add on the announcement message of an
Active raid channel (bot.py `on_reaction_add`, join branch): the platform has
recorded the actor's mark (the triggering event), then the handler invites the
actor iff their overwrite is empty. -/
def on_join_reaction_add (s : MemberState) (u : Nat) : MemberState :=
  let s1 : MemberState := ⟨s.grants, insert u s.marks⟩
  if u ∈ s1.grants then s1 else ⟨insert u s1.grants, s1.marks⟩

/-- Processing of a join-emoji reaction-remove on the announcement message of
an Active raid channel (bot.py `on_reaction_remove`): the platform has removed
the actor's mark (the triggering event), then the handler uninvites the actor
iff their overwrite is nonempty. -/
def on_join_reaction_remove (s : MemberState) (u : Nat) : MemberState :=
  let s1 : MemberState := ⟨s.grants, s.marks.erase u⟩
  if u ∈ s1.grants then uninvite_user_from_raid s1 u else s1

/-- Processing of a `$leaveraid` command inside an Active raid channel (bot.py
`on_message`, line 461-462): `uninvite_user_from_raid` is invoked
unconditionally. -/
def on_leave_command (s : MemberState) (u : Nat) : MemberState :=
  uninvite_user_from_raid s u

/-- Outcome of a `$endraid` command. -/
inductive EndCommandOutcome where
  | teardown
  | rejected
deriving DecidableEq

/-- The `$endraid` branch of bot.py `on_message` (lines 465-470): resolve the
creator; tear the raid down iff the resolved creator equals the issuing user,
otherwise answer with the authorization-failure embed. A `None` creator never
equals a user. -/
def handle_end_command (ch : Channel) (fetch : FetchResult Msg) (issuer : Nat) :
    EndCommandOutcome :=
  match get_raid_creator ch fetch with
  | some c => if c = issuer then .teardown else .rejected
  | none => .rejected

/-- A successful `List.find?` splits the list at the first hit: everything
before the found element fails the predicate. -/
theorem find?_first {α : Type} (p : α → Bool) :
    ∀ (l : List α) (a : α), l.find? p = some a →
      ∃ l1 l2, l = l1 ++ a :: l2 ∧ ∀ x ∈ l1, p x = false := by
  intro l
  induction l with
  | nil => intro a h; simp [List.find?] at h
  | cons hd tl ih =>
    intro a h
    by_cases hp : p hd = true
    · rw [List.find?_cons_of_pos _ hp] at h
      obtain rfl : hd = a := by injection h
      exact ⟨[], tl, rfl, by simp⟩
    · rw [List.find?_cons_of_neg _ hp] at h
      obtain ⟨l1, l2, rfl, hall⟩ := ih a h
      refine ⟨hd :: l1, l2, rfl, ?_⟩
      intro x hx
      rcases List.mem_cons.mp hx with rfl | hx
      · simpa using hp
      · exact hall x hx

/-- Looking up a channel id after an id-preserving targeted update returns the
updated image of the original lookup. -/
theorem find_channel_update (cid : Nat) (f : Channel → Channel)
    (hid : ∀ c, (f c).id = c.id) :
    ∀ pool : List Channel,
      find_channel (update_channel cid f pool) cid = (find_channel pool cid).map f := by
  intro pool
  induction pool with
  | nil => rfl
  | cons hd tl ih =>
    simp only [find_channel, update_channel, List.map_cons] at *
    by_cases h : hd.id = cid
    · rw [if_pos h]
      rw [List.find?_cons_of_pos _ (by simp [hid, h]), List.find?_cons_of_pos _ (by simp [h])]
      rfl
    · rw [if_neg h]
      rw [List.find?_cons_of_neg _ (by simp [h]), List.find?_cons_of_neg _ (by simp [h])]
      exact ih

/-- A pool containing a channel resolves that channel's id. -/
theorem find_channel_isSome (pool : List Channel) (ch : Channel) (hmem : ch ∈ pool) :
    (find_channel pool ch.id).isSome = true := by
  rcases hfc : find_channel pool ch.id with _ | x
  · exfalso
    have := List.find?_eq_none.mp hfc ch hmem
    simp at this
  · rfl

/-- C1: the claim says the scan-then-claim sequence is serialized per scope so
that N concurrent allocate calls against K ≥ N open channels return N distinct
channels. The code holds no lock, so the schedule in which both scans run
before either topic write lands is legal; evaluating it on a pool of two open
channels, both calls return channel 1 — one distinct channel instead of two —
and the second topic write overwrites the first claim. -/
theorem c1_concurrent_allocates_double_claim :
    (interleaved_double_allocate [⟨1, none, ∅, ∅, []⟩, ⟨2, none, ∅, ∅, []⟩] 100 200).1 = some 1 ∧
    (interleaved_double_allocate [⟨1, none, ∅, ∅, []⟩, ⟨2, none, ∅, ∅, []⟩] 100 200).2.1 = some 1 ∧
    (interleaved_double_allocate [⟨1, none, ∅, ∅, []⟩, ⟨2, none, ∅, ∅, []⟩] 100 200).2.2 =
      [⟨1, some 200, ∅, ∅, []⟩, ⟨2, none, ∅, ∅, []⟩] := by
  decide

/-- C2: on a sweep tick, every Active channel (binding slot non-empty) whose
announcement record is unresolvable, or whose age strictly exceeds the TTL
(regardless of how many member grants it has), or which has zero member
grants, is passed to teardown. -/
theorem c2_sweep_reclaims_active (ch : Channel) (fetch : FetchResult Msg) (now ttl : Int)
    (hactive : is_open ch = false) :
    (get_announcement_message ch.topic fetch = none →
      sweep_invokes_teardown fetch now ttl ch = true) ∧
    (∀ m, get_announcement_message ch.topic fetch = some m → ttl < now - m.timestamp →
      sweep_invokes_teardown fetch now ttl ch = true) ∧
    (get_raid_members ch = ∅ → sweep_invokes_teardown fetch now ttl ch = true) := by
  refine ⟨?_, ?_, ?_⟩
  · intro h
    simp [sweep_invokes_teardown, is_raid_expired, h, hactive]
  · intro m hm hlt
    simp [sweep_invokes_teardown, is_raid_expired, hm, hactive, hlt]
  · intro h
    simp [sweep_invokes_teardown, h, hactive]

/-- Witness for C2 at the spec's own numbers: a channel created at T0 = 0 with
TTL 7200 and one member, swept at T0 + 7300 with the record resolvable, is
reclaimed despite its nonzero membership. -/
theorem c2_sweep_reclaims_active_witness :
    sweep_invokes_teardown (.found ⟨5, 0, []⟩) 7300 7200 ⟨1, some 5, {7}, ∅, []⟩ = true :=
  (c2_sweep_reclaims_active ⟨1, some 5, {7}, ∅, []⟩ (.found ⟨5, 0, []⟩) 7300 7200
    (by decide)).2.1 ⟨5, 0, []⟩ rfl (by decide)

/-- C3: for an Active raid, a join-signal-add followed by a join-signal-remove
for an actor who had not joined restores exactly the original grant-and-mark
state, and the explicit `$leaveraid` command reaches exactly the same end
state as a join-signal-remove for the same actor (membership being identical
with grant possession in both directions). -/
theorem c3_membership_symmetry (s : MemberState) (u : Nat) :
    (u ∉ s.grants → u ∉ s.marks →
      on_join_reaction_remove (on_join_reaction_add s u) u = s) ∧
    on_leave_command s u = on_join_reaction_remove s u := by
  obtain ⟨g, mk⟩ := s
  constructor
  · intro hg hm
    simp only [on_join_reaction_add, on_join_reaction_remove, uninvite_user_from_raid] at *
    rw [if_neg hg]
    simp only [Finset.erase_insert hm, Finset.mem_insert_self, if_pos]
    rw [Finset.erase_insert hg, Finset.erase_eq_self.mpr hm]
  · simp only [on_leave_command, on_join_reaction_remove, uninvite_user_from_raid]
    by_cases h : u ∈ g
    · simp [h, Finset.erase_idem]
    · simp [h, Finset.erase_eq_self.mpr h]

/-- Witness for C3: actor 7 on an empty raid joins by reaction and leaves by
reaction, ending where it started; the leave command agrees with the
reaction-remove path. -/
theorem c3_membership_symmetry_witness :
    (7 ∉ (∅ : Finset Nat)) ∧
    on_join_reaction_remove (on_join_reaction_add ⟨∅, ∅⟩ 7) 7 = (⟨∅, ∅⟩ : MemberState) ∧
    on_leave_command ⟨∅, ∅⟩ 7 = on_join_reaction_remove (⟨∅, ∅⟩ : MemberState) 7 :=
  ⟨by decide, (c3_membership_symmetry ⟨∅, ∅⟩ 7).1 (by decide) (by decide),
    (c3_membership_symmetry ⟨∅, ∅⟩ 7).2⟩

/-- C4 counterexample: teardown of an already-Open channel is not a no-op.
`end_raid_group` never checks `is_open`; on an Open channel holding a user
grant it completes (returns success) but revokes that grant, changing the
state. -/
theorem c4_teardown_open_not_noop :
    (end_raid_group ⟨.notFound, true, true, true, true⟩ ∅ ⟨1, none, {7}, ∅, []⟩).ok = true ∧
    (end_raid_group ⟨.notFound, true, true, true, true⟩ ∅ ⟨1, none, {7}, ∅, []⟩).channel ≠
      (⟨1, none, {7}, ∅, []⟩ : Channel) ∧
    (end_raid_group ⟨.notFound, true, true, true, true⟩ ∅ ⟨1, none, {7}, ∅, []⟩).revoked = {7} := by
  decide

/-- C4 (amended): when the external operations succeed, teardown always
returns success (also on an already-Open channel), and calling it twice in
immediate succession never errors and never double-revokes: the second call
revokes no grant and leaves the channel state of the first call unchanged. -/
theorem c4_teardown_idempotent_amended (env : TeardownEnv) (viewers : Finset Nat) (ch : Channel)
    (hd : env.deletePermsOk = true) (hp : env.purgeOk = true)
    (he : env.editMessageOk = true) (hc : env.clearReactionsOk = true) :
    (end_raid_group env viewers ch).ok = true ∧
    (end_raid_group env viewers (end_raid_group env viewers ch).channel).ok = true ∧
    (end_raid_group env viewers (end_raid_group env viewers ch).channel).revoked = ∅ ∧
    (end_raid_group env viewers (end_raid_group env viewers ch).channel).channel =
      (end_raid_group env viewers ch).channel := by
  obtain ⟨fr, dp, pu, em, cr⟩ := env
  simp only at hd hp he hc
  subst hd; subst hp; subst he; subst hc
  have h1 : end_raid_group ⟨fr, true, true, true, true⟩ viewers ch =
      ⟨⟨ch.id, none, ∅, ch.roleGrants \ viewers, []⟩, ch.userGrants, true⟩ := by
    simp only [end_raid_group]
    cases hmsg : get_announcement_message ch.topic fr <;> simp [hmsg]
  rw [h1]
  have h2 : end_raid_group ⟨fr, true, true, true, true⟩ viewers
      ⟨ch.id, none, ∅, ch.roleGrants \ viewers, []⟩ =
      ⟨⟨ch.id, none, ∅, ch.roleGrants \ viewers, []⟩, ∅, true⟩ := by
    simp [end_raid_group, get_announcement_message, sdiff_idem]
  rw [h2]
  simp

/-- Witness for C4 (amended): double teardown of an Active channel with one
member, one viewer-role grant and a deleted record, under succeeding external
calls. -/
theorem c4_teardown_idempotent_amended_witness :
    (end_raid_group ⟨.notFound, true, true, true, true⟩ {3} ⟨1, some 5, {7}, {3}, [9]⟩).ok = true ∧
    (end_raid_group ⟨.notFound, true, true, true, true⟩ {3}
      (end_raid_group ⟨.notFound, true, true, true, true⟩ {3}
        ⟨1, some 5, {7}, {3}, [9]⟩).channel).ok = true ∧
    (end_raid_group ⟨.notFound, true, true, true, true⟩ {3}
      (end_raid_group ⟨.notFound, true, true, true, true⟩ {3}
        ⟨1, some 5, {7}, {3}, [9]⟩).channel).revoked = ∅ ∧
    (end_raid_group ⟨.notFound, true, true, true, true⟩ {3}
      (end_raid_group ⟨.notFound, true, true, true, true⟩ {3}
        ⟨1, some 5, {7}, {3}, [9]⟩).channel).channel =
      (end_raid_group ⟨.notFound, true, true, true, true⟩ {3}
        ⟨1, some 5, {7}, {3}, [9]⟩).channel :=
  c4_teardown_idempotent_amended ⟨.notFound, true, true, true, true⟩ {3}
    ⟨1, some 5, {7}, {3}, [9]⟩ rfl rfl rfl rfl

/-- C5 counterexample: a failing sub-step other than record resolution does
block clearing the binding slot. On an Active channel whose record is still
resolvable, a failing history purge aborts `end_raid_group` before the topic
is cleared: the call errors and the slot still holds the reference. -/
theorem c5_purge_failure_blocks_unbind :
    (end_raid_group ⟨.found ⟨5, 0, []⟩, true, false, true, true⟩ ∅
      ⟨1, some 5, {7}, ∅, [9]⟩).ok = false ∧
    (end_raid_group ⟨.found ⟨5, 0, []⟩, true, false, true, true⟩ ∅
      ⟨1, some 5, {7}, ∅, [9]⟩).channel.topic = some 5 := by
  decide

/-- C5 (amended): only the announcement-record resolution is downgraded to
best-effort. If the permission deletions and the purge succeed, teardown runs
to completion and clears the binding slot even when the record cannot be
resolved (deleted or unreachable) — the record-update flags are then never
consulted; a failure of a non-fetch sub-step instead aborts before the slot is
cleared. -/
theorem c5_record_loss_best_effort (env : TeardownEnv) (viewers : Finset Nat) (ch : Channel)
    (hd : env.deletePermsOk = true) (hp : env.purgeOk = true)
    (hrec : get_announcement_message ch.topic env.fetchRecord = none) :
    (end_raid_group env viewers ch).ok = true ∧
    (end_raid_group env viewers ch).channel.topic = none ∧
    is_open (end_raid_group env viewers ch).channel = true := by
  obtain ⟨fr, dp, pu, em, cr⟩ := env
  simp only at hd hp hrec
  subst hd; subst hp
  simp [end_raid_group, hrec, is_open]

/-- Witness for C5 (amended): the record is deleted and even both
record-update operations would fail, yet teardown completes and returns the
channel to Open. -/
theorem c5_record_loss_best_effort_witness :
    (end_raid_group ⟨.notFound, true, true, false, false⟩ ∅ ⟨1, some 5, {7}, ∅, [9]⟩).ok = true ∧
    (end_raid_group ⟨.notFound, true, true, false, false⟩ ∅
      ⟨1, some 5, {7}, ∅, [9]⟩).channel.topic = none ∧
    is_open (end_raid_group ⟨.notFound, true, true, false, false⟩ ∅
      ⟨1, some 5, {7}, ∅, [9]⟩).channel = true :=
  c5_record_loss_best_effort ⟨.notFound, true, true, false, false⟩ ∅
    ⟨1, some 5, {7}, ∅, [9]⟩ rfl rfl rfl

/-- C6 counterexample: a failed bind is not rolled back. On a pool whose only
channel is open, the allocator claims it and writes message id 42 into its
topic; the following unguarded announcement fetch fails (record not found),
the exception propagates (`ok = false`) — and the binding slot still holds 42
instead of being rolled back to empty. -/
theorem c6_failed_bind_keeps_slot_concrete :
    (start_raid_group ⟨.notFound, true, true, true⟩ ∅ 7200 [⟨1, none, ∅, ∅, []⟩] 42).ok = false ∧
    find_channel (start_raid_group ⟨.notFound, true, true, true⟩ ∅ 7200
        [⟨1, none, ∅, ∅, []⟩] 42).pool 1 =
      some ⟨1, some 42, ∅, ∅, []⟩ := by
  decide

/-- C6 (amended): whenever a step of bind fails after the allocator reserved
the slot, the exception propagates and the slot keeps holding the freshly
written reference — the claimed channel's pool entry is exactly its old state
with the topic set to the message id, i.e. there is no compensating release
and the channel is left Active. -/
theorem c6_failed_bind_no_rollback (env : BindEnv) (aux : Finset Nat) (ttl : Int)
    (pool : List Channel) (messageId : Nat) (ch : Channel)
    (havail : get_available_raid_channel pool = some ch)
    (hfail : (start_raid_group env aux ttl pool messageId).ok = false) :
    find_channel (start_raid_group env aux ttl pool messageId).pool ch.id =
      (find_channel pool ch.id).map (fun c => { c with topic := some messageId }) ∧
    (find_channel pool ch.id).isSome = true := by
  have hmem : ch ∈ pool := List.mem_of_find?_eq_some havail
  have hsome := find_channel_isSome pool ch hmem
  refine ⟨?_, hsome⟩
  have hupd := find_channel_update ch.id (fun c => { c with topic := some messageId })
    (fun c => rfl) pool
  obtain ⟨fm, s, r, p⟩ := env
  cases fm with
  | found m =>
    cases s <;> cases r <;> cases p <;>
      simp only [start_raid_group, havail] at hfail ⊢ <;>
      simp at hfail ⊢ <;>
      exact hupd
  | notFound =>
    simp only [start_raid_group, havail]
    exact hupd
  | transient =>
    simp only [start_raid_group, havail]
    exact hupd

/-- Witness for C6 (amended): one open channel, transient failure on the
announcement fetch after the claim. -/
theorem c6_failed_bind_no_rollback_witness :
    find_channel (start_raid_group ⟨.transient, true, true, true⟩ ∅ 7200
        [⟨1, none, ∅, ∅, []⟩] 42).pool 1 =
      (find_channel [⟨1, none, ∅, ∅, []⟩] 1).map (fun c => { c with topic := some 42 }) ∧
    (find_channel [⟨1, none, ∅, ∅, []⟩] 1).isSome = true :=
  c6_failed_bind_no_rollback ⟨.transient, true, true, true⟩ ∅ 7200
    [⟨1, none, ∅, ∅, []⟩] 42 ⟨1, none, ∅, ∅, []⟩ rfl rfl

/-- C7: a successful session start writes the announcement message id into the
claimed channel's binding slot, computes the expiration as the announcement
timestamp plus the TTL, posts the summary message carrying the leave reaction,
grants every auxiliary role read access, and — once the handler completes —
the requesting creator holds a user grant on the channel. -/
theorem c7_bind_success_effects (m : Msg) (aux : Finset Nat) (ttl : Int) (backup : Nat)
    (pool : List Channel) (requester messageId : Nat) (ch : Channel)
    (havail : get_available_raid_channel pool = some ch) :
    (start_raid_group ⟨.found m, true, true, true⟩ aux ttl pool messageId).ok = true ∧
    (start_raid_group ⟨.found m, true, true, true⟩ aux ttl pool messageId).raidChannel =
      some ch.id ∧
    (start_raid_group ⟨.found m, true, true, true⟩ aux ttl pool messageId).expiration =
      some (get_raid_expiration m.timestamp ttl) ∧
    (start_raid_group ⟨.found m, true, true, true⟩ aux ttl pool messageId).summary =
      some ⟨ch.id, true⟩ ∧
    (handle_raid_start ⟨.found m, true, true, true⟩ aux ttl backup pool
      requester messageId).response = some (.started ch.id) ∧
    ∃ ch', find_channel (handle_raid_start ⟨.found m, true, true, true⟩ aux ttl backup pool
        requester messageId).pool ch.id = some ch' ∧
      ch'.topic = some messageId ∧ requester ∈ ch'.userGrants ∧ aux ⊆ ch'.roleGrants := by
  have hstart : start_raid_group ⟨.found m, true, true, true⟩ aux ttl pool messageId =
      ⟨update_channel ch.id (fun c => { c with roleGrants := c.roleGrants ∪ aux })
        (update_channel ch.id (fun c => { c with topic := some messageId }) pool),
       some ch.id, some (get_raid_expiration m.timestamp ttl), some ⟨ch.id, true⟩, true⟩ := by
    simp [start_raid_group, havail]
  have hhandle : handle_raid_start ⟨.found m, true, true, true⟩ aux ttl backup pool
      requester messageId =
      ⟨update_channel ch.id (fun c => { c with userGrants := insert requester c.userGrants })
        (update_channel ch.id (fun c => { c with roleGrants := c.roleGrants ∪ aux })
          (update_channel ch.id (fun c => { c with topic := some messageId }) pool)),
       some (.started ch.id), true⟩ := by
    simp [handle_raid_start, hstart, invite_user_to_raid]
  have hmem : ch ∈ pool := List.mem_of_find?_eq_some havail
  obtain ⟨x, hx⟩ := Option.isSome_iff_exists.mp (find_channel_isSome pool ch hmem)
  have e1 := find_channel_update ch.id (fun c => { c with topic := some messageId })
    (fun c => rfl) pool
  have e2 := find_channel_update ch.id (fun c => { c with roleGrants := c.roleGrants ∪ aux })
    (fun c => rfl) (update_channel ch.id (fun c => { c with topic := some messageId }) pool)
  have e3 := find_channel_update ch.id
    (fun c => { c with userGrants := insert requester c.userGrants }) (fun c => rfl)
    (update_channel ch.id (fun c => { c with roleGrants := c.roleGrants ∪ aux })
      (update_channel ch.id (fun c => { c with topic := some messageId }) pool))
  refine ⟨by rw [hstart], by rw [hstart], by rw [hstart], by rw [hstart], by rw [hhandle], ?_⟩
  refine ⟨{ { { x with topic := some messageId } with
      roleGrants := { x with topic := some messageId }.roleGrants ∪ aux } with
      userGrants := insert requester { { x with topic := some messageId } with
        roleGrants := { x with topic := some messageId }.roleGrants ∪ aux }.userGrants }, ?_, ?_⟩
  · rw [hhandle]
    simp only [e3, e2, e1, hx]
    rfl
  · exact ⟨rfl, Finset.mem_insert_self _ _, Finset.subset_union_right⟩

/-- Witness for C7: one open channel, announcement message 42 with timestamp
100, requester 5, one auxiliary role 3. -/
theorem c7_bind_success_effects_witness :
    (start_raid_group ⟨.found ⟨42, 100, []⟩, true, true, true⟩ {3} 7200
      [⟨1, none, ∅, ∅, []⟩] 42).ok = true ∧
    (start_raid_group ⟨.found ⟨42, 100, []⟩, true, true, true⟩ {3} 7200
      [⟨1, none, ∅, ∅, []⟩] 42).raidChannel = some 1 ∧
    (start_raid_group ⟨.found ⟨42, 100, []⟩, true, true, true⟩ {3} 7200
      [⟨1, none, ∅, ∅, []⟩] 42).expiration = some (get_raid_expiration 100 7200) ∧
    (start_raid_group ⟨.found ⟨42, 100, []⟩, true, true, true⟩ {3} 7200
      [⟨1, none, ∅, ∅, []⟩] 42).summary = some ⟨1, true⟩ ∧
    (handle_raid_start ⟨.found ⟨42, 100, []⟩, true, true, true⟩ {3} 7200 77
      [⟨1, none, ∅, ∅, []⟩] 5 42).response = some (.started 1) ∧
    ∃ ch', find_channel (handle_raid_start ⟨.found ⟨42, 100, []⟩, true, true, true⟩ {3} 7200 77
        [⟨1, none, ∅, ∅, []⟩] 5 42).pool 1 = some ch' ∧
      ch'.topic = some 42 ∧ 5 ∈ ch'.userGrants ∧ {3} ⊆ ch'.roleGrants :=
  c7_bind_success_effects ⟨42, 100, []⟩ {3} 7200 77 [⟨1, none, ∅, ∅, []⟩] 5 42
    ⟨1, none, ∅, ∅, []⟩ rfl

/-- C8: the allocator returns the first open channel of the pool in discovery
order — everything before it is busy — and returns none exactly when every
channel is busy; in that case the session-start handler answers with the
busy response pointing at the backup channel (a normal response, not an
error), leaving the pool untouched. -/
theorem c8_allocate_first_open (pool : List Channel) :
    (get_available_raid_channel pool = none ↔ ∀ ch ∈ pool, is_open ch = false) ∧
    (∀ ch, get_available_raid_channel pool = some ch →
      is_open ch = true ∧ ∃ l1 l2, pool = l1 ++ ch :: l2 ∧ ∀ x ∈ l1, is_open x = false) ∧
    (∀ env aux ttl backup requester messageId,
      get_available_raid_channel pool = none →
      handle_raid_start env aux ttl backup pool requester messageId =
        ⟨pool, some (.busy backup), true⟩) := by
  refine ⟨?_, ?_, ?_⟩
  · constructor
    · intro h ch hmem
      have := List.find?_eq_none.mp h ch hmem
      simpa using this
    · intro h
      apply List.find?_eq_none.mpr
      intro x hx
      simp [h x hx]
  · intro ch h
    exact ⟨List.find?_some h, find?_first _ pool ch h⟩
  · intro env aux ttl backup requester messageId h
    simp [handle_raid_start, start_raid_group, h]

/-- Witness for C8: a pool whose only channel is busy makes the handler route
the requester to backup channel 77 with the busy response. -/
theorem c8_allocate_first_open_witness :
    handle_raid_start ⟨.notFound, true, true, true⟩ ∅ 7200 77 [⟨1, some 9, ∅, ∅, []⟩] 5 42 =
      ⟨[⟨1, some 9, ∅, ∅, []⟩], some (.busy 77), true⟩ :=
  (c8_allocate_first_open [⟨1, some 9, ∅, ∅, []⟩]).2.2
    ⟨.notFound, true, true, true⟩ ∅ 7200 77 5 42 rfl

/-- C9 counterexample: the record fetch does silently treat a transient
failure as not-found. On a bound channel, a transient failure is swallowed to
the same `none` that a deleted record produces, and that alone makes
`is_raid_expired` conclude the record is gone (report the raid expired). -/
theorem c9_transient_conflated_with_notfound :
    get_announcement_message (some 5) FetchResult.transient = none ∧
    get_announcement_message (some 5) FetchResult.transient =
      get_announcement_message (some 5) FetchResult.notFound ∧
    is_raid_expired (some 5) FetchResult.transient 10 7200 = true := by
  decide

/-- C9 (amended): the core swallows every fetch failure uniformly — a bare
catch-all maps a transient failure and a not-found to the same unresolvable
`none` outcome, so a transient fetch failure alone makes the system conclude
the record is gone: `is_raid_expired` reports expiry on a transient failure
for every binding slot and every clock value. -/
theorem c9_uniform_failure_swallowing (topic : Option Nat) (now ttl : Int) :
    get_announcement_message topic FetchResult.transient =
      get_announcement_message topic FetchResult.notFound ∧
    get_announcement_message topic FetchResult.transient = none ∧
    is_raid_expired topic FetchResult.transient now ttl = true := by
  cases topic <;> simp [get_announcement_message, is_raid_expired]

/-- C10: whenever the creator of an Active channel cannot be resolved — the
announcement record is unresolvable, or it carries no embed or no embed
fields, or the recorded creator mention matches no grant holder — the
`$endraid` command is rejected with the authorization failure for every
issuing user, so only the sweep can reclaim the channel. -/
theorem c10_unresolved_creator_rejects_end (ch : Channel) (fetch : FetchResult Msg) :
    (∀ issuer, get_raid_creator ch fetch = none →
      handle_end_command ch fetch issuer = .rejected) ∧
    (get_announcement_message ch.topic fetch = none → get_raid_creator ch fetch = none) ∧
    (∀ m, get_announcement_message ch.topic fetch = some m →
      (m.embeds = [] ∨ ∃ e es, m.embeds = e :: es ∧ e.fields = []) →
      get_raid_creator ch fetch = none) ∧
    (∀ m e es f fs, get_announcement_message ch.topic fetch = some m →
      m.embeds = e :: es → e.fields = f :: fs →
      (∀ u ∈ ch.userGrants, mentionOf u ≠ f.2) →
      get_raid_creator ch fetch = none) := by
  refine ⟨?_, ?_, ?_, ?_⟩
  · intro issuer h
    simp [handle_end_command, h]
  · intro h
    simp [get_raid_creator, h]
  · intro m hm hcase
    rcases hcase with hnil | ⟨e, es, hcons, hfields⟩
    · simp [get_raid_creator, hm, hnil]
    · simp [get_raid_creator, hm, hcons, hfields]
  · intro m e es f fs hm hcons hfields hnomatch
    simp only [get_raid_creator, hm, hcons, hfields]
    apply List.find?_eq_none.mpr
    intro u hu
    have hu2 : u ∈ ch.userGrants := (Finset.mem_sort _).mp hu
    simp [hnomatch u hu2]

/-- Witness for C10: an Active channel whose record has been deleted rejects
the end command from user 3. -/
theorem c10_unresolved_creator_rejects_end_witness :
    handle_end_command ⟨1, some 5, {7}, ∅, []⟩ .notFound 3 = .rejected :=
  (c10_unresolved_creator_rejects_end ⟨1, some 5, {7}, ∅, []⟩ .notFound).1 3 rfl

end RaidBot
